import Mathlib

/-!
Shallow embedding of src/evaluator.py.

The file models, in order:
- Python values and dictionaries (association lists with first-match lookup);
- the external asteval collaborator (make_symbol_table and the Interpreter
  configuration surface), modelled from the spec where its code is not in
  the repository;
- RunnableProcessing (a child process pushing exactly one envelope into a
  multiprocessing.Queue of maxsize 1), lines 14-36;
- the timeout decorator's inner function, lines 44-61, as a function of the
  observation made after join(seconds): whether the child is still alive,
  the elapsed wall-clock time, and the queue contents;
- evaluate, lines 65-97, parameterised by the interpreter's execution
  function (asteval is external, so execution is an arbitrary function from
  code and symbol table to a resulting symbol table or a raised error);
- a heap-passing variant used to state the frame property that the caller's
  input_variables dictionary is never mutated.
-/

/-- Python identifiers (dictionary keys, variable names). -/
abbrev Ident := String

/-- Python values as far as the evaluator manipulates them: numbers, strings,
booleans, None, and builtin callables such as range. -/
inductive Value where
  | int (n : Int)
  | str (s : String)
  | bool (b : Bool)
  | none
  | builtin (name : String)
deriving DecidableEq

/-- A Python dictionary, modelled as an association list.  Lookup takes the
first matching entry; dictionaries built by the embedding keep keys nodup. -/
abbrev Dict := List (Ident × Value)

/-- Keys of a dictionary, in iteration order. -/
def Dict.keys (d : Dict) : List Ident := d.map Prod.fst

/-- Dictionary lookup: first entry whose key matches. -/
def Dict.lookup (d : Dict) (k : Ident) : Option Value :=
  match d with
  | [] => Option.none
  | kv :: rest => if kv.1 = k then Option.some kv.2 else Dict.lookup rest k

/-- Modelled from the spec: the fixed allow-list of safe builtins that the
external sandboxed-evaluator collaborator (asteval's make_symbol_table, not
part of this repository) seeds a fresh base symbol table with.  The spec
requires a minimal base table with selected safe built-ins and no
ambient/global namespace leakage; it is a closed constant, a function of
nothing, so by construction it inherits nothing from any host namespace. -/
def base_symtable : Dict :=
  [("len", Value.builtin "len"), ("abs", Value.builtin "abs"),
   ("min", Value.builtin "min"), ("max", Value.builtin "max")]

/-- Modelled from the spec: asteval's make_symbol_table builds a fresh base
table and then inserts every keyword entry (named-value seeding), keyword
entries overriding base entries of the same name.  Only the key set and the
looked-up values matter to the claims, so the update is modelled as keeping
the base entries whose keys are not overridden, followed by the keyword
entries. -/
def make_symbol_table (kws : Dict) : Dict :=
  (base_symtable.filter (fun kv => decide (kv.1 ∉ Dict.keys kws))) ++ kws

/-- The boolean configuration surface of the external Interpreter (asteval),
one toggle per language capability, exactly the keywords passed at
src/evaluator.py lines 80-94. -/
structure InterpreterConfig where
  use_numpy : Bool
  no_if : Bool
  no_for : Bool
  no_while : Bool
  no_try : Bool
  no_functiondef : Bool
  no_ifexp : Bool
  no_listcomp : Bool
  no_augassign : Bool
  no_assert : Bool
  no_delete : Bool
  no_raise : Bool
  no_print : Bool
deriving DecidableEq

/-- The Interpreter configuration constructed by evaluate,
src/evaluator.py lines 80-94, field for field. -/
def evaluatorConfig : InterpreterConfig :=
  { use_numpy := false
    no_if := false
    no_for := false
    no_while := false
    no_try := true
    no_functiondef := true
    no_ifexp := false
    no_listcomp := true
    no_augassign := false
    no_assert := true
    no_delete := true
    no_raise := true
    no_print := true }

/-- Errors crossing the wrapper: the TimeoutException raised at line 54
(carrying the elapsed wall-clock runtime), the AssertionError of line 55,
and arbitrary exceptions raised by the evaluated code (carrying their type
name and message, the observable error identity). -/
inductive PyError where
  | timeoutException (runtime : ℚ)
  | assertionError
  | raised (ty : String) (msg : String)
deriving DecidableEq

/-- The tagged result tuple pushed into the queue by run_func,
src/evaluator.py lines 28 and 30: (True, result) or (False, e). -/
inductive Envelope (α : Type) where
  | success (result : α)
  | failure (e : PyError)
deriving DecidableEq

/-- A multiprocessing.Queue with a capacity bound. -/
structure BoundedQueue (α : Type) where
  maxsize : Nat
  items : List α
deriving DecidableEq

/-- Queue.full(): the queue holds at least maxsize items. -/
def BoundedQueue.full (q : BoundedQueue α) : Bool :=
  q.maxsize ≤ q.items.length

/-- Queue.put: appends when the queue is not full.  (A put on a full queue
blocks in Python; it is never reached here because run_func performs exactly
one put per invocation.) -/
def BoundedQueue.put (q : BoundedQueue α) (a : α) : BoundedQueue α :=
  if q.full then q else { q with items := q.items ++ [a] }

/-- Perform a sequence of puts in order. -/
def pushAll (q : BoundedQueue α) (xs : List α) : BoundedQueue α :=
  xs.foldl BoundedQueue.put q

/-- The queue created in RunnableProcessing.__init__,
src/evaluator.py line 20: multiprocessing.Queue(maxsize=1), empty. -/
def RunnableProcessing.newQueue (α : Type) : BoundedQueue (Envelope α) :=
  { maxsize := 1, items := [] }

/-- RunnableProcessing.run_func, src/evaluator.py lines 25-30: invoke the
callable; on normal return push (True, result), on a raised exception catch
it and push (False, e).  The returned list is the sequence of puts the child
performs, in order. -/
def run_func (f : Unit → Except PyError α) : List (Envelope α) :=
  match f () with
  | Except.ok r => [Envelope.success r]
  | Except.error e => [Envelope.failure e]

/-- What the parent observes about the child after proc.join(seconds),
src/evaluator.py lines 49-56: whether proc.is_alive(), the elapsed
wall-clock time time.time() - now, and the queue at that instant. -/
structure ProcObs (α : Type) where
  alive : Bool
  elapsed : ℚ
  queue : BoundedQueue (Envelope α)

/-- The timeout decorator's inner function after the join,
src/evaluator.py lines 50-60, as a function of the observation.  Returns
the call's outcome together with whether proc.terminate() was called.
If the child is still alive: terminate (when force_kill) and raise
TimeoutException carrying the elapsed runtime.  Otherwise assert
proc.done() (queue full; an empty queue is an AssertionError), pull the
envelope, and return the result or re-raise the carried error unchanged. -/
def timeout_inner (force_kill : Bool) (obs : ProcObs α) : Except PyError α × Bool :=
  if obs.alive then
    (Except.error (PyError.timeoutException obs.elapsed), force_kill)
  else if obs.queue.full then
    match obs.queue.items.head? with
    | Option.some (Envelope.success r) => (Except.ok r, false)
    | Option.some (Envelope.failure e) => (Except.error e, false)
    | Option.none => (Except.error PyError.assertionError, false)
  else
    (Except.error PyError.assertionError, false)

/-- The execution entry point of the external Interpreter: given the
configuration and the code, it mutates the symbol table in place and either
finishes (yielding the post-execution table) or raises.  asteval is external,
so claims quantify over an arbitrary such function. -/
abbrev Interp := InterpreterConfig → String → Dict → Except PyError Dict

/-- Line 96 of src/evaluator.py: the dict comprehension
filtering the final symbol table down to the requested output variables. -/
def filterOutputs (sym : Dict) (output_variables : List Ident) : Dict :=
  sym.filter (fun kv => decide (kv.1 ∈ output_variables))

/-- Line 79 of src/evaluator.py: the initial symbol table,
make_symbol_table(use_numpy=False, range=range, **input_variables) —
the base table seeded with the range builtin and every input entry. -/
def init_symtable (input_variables : Dict) : Dict :=
  make_symbol_table (("range", Value.builtin "range") :: input_variables)

/-- The body of evaluate, src/evaluator.py lines 79-97 (what runs inside the
child process): build the symbol table, construct the Interpreter with
evaluatorConfig, run the code, and return the final symbol table filtered to
output_variables; an error raised by the interpreter propagates. -/
def evaluate_body (interp : Interp) (eval_code : String)
    (input_variables : Dict) (output_variables : List Ident) : Except PyError Dict :=
  let sym := init_symtable input_variables
  match interp evaluatorConfig eval_code sym with
  | Except.ok sym2 => Except.ok (filterOutputs sym2 output_variables)
  | Except.error e => Except.error e

/-- The deadline fixed by the decorator application at line 65 of
src/evaluator.py: @timeout(0.5). -/
def evaluate_timeout_seconds : ℚ := 1/2

/-- The parameters of the public evaluate function, src/evaluator.py
line 66: def evaluate(eval_code, input_variables={}, output_variables=[]). -/
def evaluate_param_names : List String :=
  ["eval_code", "input_variables", "output_variables"]

/-- The outcome of the race between the child process and join(seconds):
either the child was still alive when join returned (with the measured
elapsed time), or it had finished. -/
inductive Timing where
  | timedOut (elapsed : ℚ)
  | finished
deriving DecidableEq

/-- The observation the parent makes for a given timing outcome: if the
child finished, the queue holds exactly the puts run_func performed; if it
is still alive, the queue contents are not consulted on that path. -/
def mkObs (timing : Timing) (f : Unit → Except PyError α) : ProcObs α :=
  match timing with
  | Timing.timedOut t =>
      { alive := true, elapsed := t, queue := RunnableProcessing.newQueue α }
  | Timing.finished =>
      { alive := false, elapsed := 0,
        queue := pushAll (RunnableProcessing.newQueue α) (run_func f) }

/-- One whole call to the decorated evaluate: run evaluate_body in the
child, observe after join, and apply the decorator's inner logic with
force_kill = True (the decorator's default, used by @timeout(0.5)). -/
def evaluate_call (interp : Interp) (eval_code : String) (input_variables : Dict)
    (output_variables : List Ident) (timing : Timing) : Except PyError Dict × Bool :=
  timeout_inner true
    (mkObs timing (fun _ => evaluate_body interp eval_code input_variables output_variables))

/-- A heap of Python dictionaries, used to state frame properties: references
are natural numbers, the store maps each reference to the dictionary contents
it currently holds, and next is the first unallocated reference. -/
structure Heap where
  next : Nat
  store : Nat → Dict

/-- Read the dictionary a reference currently holds. -/
def Heap.read (h : Heap) (r : Nat) : Dict := h.store r

/-- Overwrite the dictionary a reference holds (in-place dict mutation). -/
def Heap.write (h : Heap) (r : Nat) (d : Dict) : Heap :=
  { h with store := Function.update h.store r d }

/-- Allocate a fresh reference holding the given dictionary. -/
def Heap.alloc (h : Heap) (d : Dict) : Nat × Heap :=
  (h.next, { next := h.next + 1, store := Function.update h.store h.next d })

/-- The body of evaluate with the caller's input_variables dictionary passed
by reference, tracking every dictionary operation the source performs on the
heap: the keyword unpacking at line 79 reads the caller's dictionary;
make_symbol_table allocates a fresh symbol-table dictionary; the interpreter
run mutates only that fresh dictionary; the output filter at line 96 builds
a new dictionary from it.  No operation writes through the caller's
reference. -/
def evaluate_heap (interp : Interp) (eval_code : String) (r : Nat)
    (output_variables : List Ident) (h : Heap) : Except PyError Dict × Heap :=
  let input_variables := Heap.read h r
  let alloc := Heap.alloc h (init_symtable input_variables)
  match interp evaluatorConfig eval_code (Heap.read alloc.2 alloc.1) with
  | Except.ok sym2 =>
      let h2 := Heap.write alloc.2 alloc.1 sym2
      (Except.ok (filterOutputs (Heap.read h2 alloc.1) output_variables), h2)
  | Except.error e => (Except.error e, alloc.2)

/-- One whole call to evaluate with the caller's input_variables on the
heap: on timeout the child is killed before touching anything further and
the heap is unchanged; otherwise the body runs and its outcome is relayed. -/
def evaluate_call_heap (interp : Interp) (eval_code : String) (r : Nat)
    (output_variables : List Ident) (timing : Timing) (h : Heap) :
    (Except PyError Dict × Bool) × Heap :=
  match timing with
  | Timing.timedOut t => ((Except.error (PyError.timeoutException t), true), h)
  | Timing.finished =>
      let pr := evaluate_heap interp eval_code r output_variables h
      ((match pr.1 with
        | Except.ok m => (Except.ok m, false)
        | Except.error e => (Except.error e, false)), pr.2)

/-- Lookup falls through to the second list when the key misses the first. -/
lemma Dict.lookup_append_of_none (d1 d2 : Dict) (k : Ident) :
    Dict.lookup d1 k = Option.none → Dict.lookup (d1 ++ d2) k = Dict.lookup d2 k := by
  induction d1 with
  | nil => intro _; rfl
  | cons kv rest ih =>
    intro h
    by_cases hk : kv.1 = k
    · simp [Dict.lookup, hk] at h
    · simp only [List.cons_append, Dict.lookup, if_neg hk] at h ⊢
      exact ih h

/-- A key outside a dictionary's key set looks up to nothing. -/
lemma Dict.lookup_eq_none_of_not_mem_keys (d : Dict) (k : Ident) :
    k ∉ Dict.keys d → Dict.lookup d k = Option.none := by
  induction d with
  | nil => intro _; rfl
  | cons kv rest ih =>
    intro h
    simp only [Dict.keys, List.map_cons, List.mem_cons, not_or] at h
    have hne : ¬ kv.1 = k := fun e => h.1 e.symm
    simp only [Dict.lookup, if_neg hne]
    exact ih h.2

/-- With nodup keys, membership determines the looked-up value. -/
lemma Dict.lookup_eq_some_of_mem (d : Dict) (k : Ident) (v : Value) :
    (Dict.keys d).Nodup → (k, v) ∈ d → Dict.lookup d k = Option.some v := by
  induction d with
  | nil => intro _ hm; cases hm
  | cons kv rest ih =>
    intro hnd hm
    simp only [Dict.keys, List.map_cons, List.nodup_cons] at hnd
    rcases List.mem_cons.mp hm with h1 | h2
    · subst h1
      simp [Dict.lookup]
    · have hk : k ∈ Dict.keys rest := by
        simpa [Dict.keys] using List.mem_map_of_mem Prod.fst h2
      have hne : kv.1 ≠ k := fun e => hnd.1 (e ▸ hk)
      simp only [Dict.lookup, if_neg hne]
      exact ih hnd.2 h2

/-- The base entries that survive the update all have keys outside kws, so a
key of kws misses them. -/
lemma Dict.lookup_filtered_base (kws : Dict) (k : Ident) :
    k ∈ Dict.keys kws →
    Dict.lookup (base_symtable.filter (fun kv => decide (kv.1 ∉ Dict.keys kws))) k =
      Option.none := by
  intro hk
  apply Dict.lookup_eq_none_of_not_mem_keys
  intro hmem
  simp only [Dict.keys, List.mem_map, List.mem_filter, decide_eq_true_eq] at hmem hk
  obtain ⟨kv, ⟨_, hout⟩, hfst⟩ := hmem
  subst hfst
  exact hout hk

/-- On keys it seeds, the built symbol table looks up to the seeded value. -/
lemma lookup_make_symbol_table (kws : Dict) (k : Ident) :
    k ∈ Dict.keys kws →
    Dict.lookup (make_symbol_table kws) k = Dict.lookup kws k := by
  intro hk
  unfold make_symbol_table
  exact Dict.lookup_append_of_none _ _ _ (Dict.lookup_filtered_base kws k hk)

/-- When the child finished, the whole decorated call returns exactly what
the body produced: the queue holds the single envelope run_func pushed, the
done assertion passes, and the envelope is unpacked. -/
lemma evaluate_call_finished (interp : Interp) (eval_code : String)
    (input_variables : Dict) (output_variables : List Ident) :
    (evaluate_call interp eval_code input_variables output_variables Timing.finished).1 =
      evaluate_body interp eval_code input_variables output_variables := by
  cases h : evaluate_body interp eval_code input_variables output_variables <;>
    simp [evaluate_call, mkObs, run_func, h, pushAll, RunnableProcessing.newQueue,
          BoundedQueue.put, BoundedQueue.full, timeout_inner]

/-- C1: if the spawned child process is still alive after join(deadline)
returns, the decorated call terminates it forcibly (force_kill is true for
evaluate) and raises a TimeoutException carrying the elapsed wall-clock
duration; the call yields an error, never a partial output mapping. -/
theorem timeout_terminates_and_raises_elapsed (obs : ProcObs Dict)
    (h : obs.alive = true) :
    timeout_inner true obs =
      (Except.error (PyError.timeoutException obs.elapsed), true) := by
  simp [timeout_inner, h]

/-- Witness for C1 at a concrete still-alive observation. -/
theorem timeout_terminates_and_raises_elapsed_witness :
    timeout_inner true
        { alive := true, elapsed := 3, queue := RunnableProcessing.newQueue Dict } =
      (Except.error (PyError.timeoutException 3), true) :=
  timeout_terminates_and_raises_elapsed
    { alive := true, elapsed := 3, queue := RunnableProcessing.newQueue Dict } rfl

/-- C2: when the interpreter finishes with final symbol table sym2, evaluate
returns exactly the filter of sym2 to output_variables, and the key set of
that mapping is exactly output_variables intersected with the keys of the
final symbol table: requested names absent from sym2 are omitted and no
extra name leaks. -/
theorem evaluate_output_filtering (interp : Interp) (eval_code : String)
    (input_variables : Dict) (output_variables : List Ident) (sym2 : Dict)
    (h : interp evaluatorConfig eval_code (init_symtable input_variables) =
      Except.ok sym2) :
    evaluate_body interp eval_code input_variables output_variables =
      Except.ok (filterOutputs sym2 output_variables) ∧
    (∀ x, x ∈ Dict.keys (filterOutputs sym2 output_variables) ↔
        x ∈ output_variables ∧ x ∈ Dict.keys sym2) := by
  constructor
  · simp [evaluate_body, h]
  · intro x
    simp only [filterOutputs, Dict.keys, List.mem_map, List.mem_filter,
      decide_eq_true_eq]
    constructor
    · rintro ⟨kv, ⟨hmem, hout⟩, rfl⟩
      exact ⟨hout, kv, hmem, rfl⟩
    · rintro ⟨hout, kv, hmem, rfl⟩
      exact ⟨kv, ⟨hmem, hout⟩, rfl⟩

/-- Witness for C2 at a concrete interpreter run binding y. -/
theorem evaluate_output_filtering_witness :
    evaluate_body (fun _ _ _ => Except.ok [("y", Value.int 5)]) "y = 5" [] ["y"] =
      Except.ok (filterOutputs [("y", Value.int 5)] ["y"]) ∧
    (∀ x, x ∈ Dict.keys (filterOutputs [("y", Value.int 5)] ["y"]) ↔
        x ∈ ["y"] ∧ x ∈ Dict.keys [("y", Value.int 5)]) :=
  evaluate_output_filtering (fun _ _ _ => Except.ok [("y", Value.int 5)])
    "y = 5" [] ["y"] [("y", Value.int 5)] rfl

/-- C3: when the callable running in the child raises an error e, run_func
catches it and pushes the failure envelope carrying e itself, and the
decorated call re-raises exactly that same error value — same constructor,
type name and message — not a stringified or wrapped form. -/
theorem error_propagated_identically (f : Unit → Except PyError Dict)
    (e : PyError) (h : f () = Except.error e) :
    run_func f = [Envelope.failure e] ∧
    timeout_inner true (mkObs Timing.finished f) = (Except.error e, false) := by
  constructor
  · simp [run_func, h]
  · simp [mkObs, run_func, h, pushAll, RunnableProcessing.newQueue,
      BoundedQueue.put, BoundedQueue.full, timeout_inner]

/-- Witness for C3 at a concrete raised error. -/
theorem error_propagated_identically_witness :
    run_func (fun _ =>
        (Except.error (PyError.raised "NameError" "name x is not defined") :
          Except PyError Dict)) =
      [Envelope.failure (PyError.raised "NameError" "name x is not defined")] ∧
    timeout_inner true (mkObs Timing.finished (fun _ =>
        (Except.error (PyError.raised "NameError" "name x is not defined") :
          Except PyError Dict))) =
      (Except.error (PyError.raised "NameError" "name x is not defined"), false) :=
  error_propagated_identically _
    (PyError.raised "NameError" "name x is not defined") rfl

/-- C4: the Interpreter configuration evaluate constructs disables exception
handling, raising, function definitions, list comprehensions, assertions,
deletion and printing, while conditionals, for-loops, while-loops and
augmented assignment stay enabled. -/
theorem evaluate_interpreter_flags :
    evaluatorConfig.no_try = true ∧ evaluatorConfig.no_raise = true ∧
    evaluatorConfig.no_functiondef = true ∧ evaluatorConfig.no_listcomp = true ∧
    evaluatorConfig.no_assert = true ∧ evaluatorConfig.no_delete = true ∧
    evaluatorConfig.no_print = true ∧ evaluatorConfig.no_if = false ∧
    evaluatorConfig.no_for = false ∧ evaluatorConfig.no_while = false ∧
    evaluatorConfig.no_augassign = false := by
  decide

/-- C5 counterexample: the public evaluate function accepts no
timeout_seconds parameter — its parameters are exactly eval_code,
input_variables and output_variables; the deadline is not caller-selectable. -/
theorem evaluate_has_no_timeout_parameter :
    ¬ ("timeout_seconds" ∈ evaluate_param_names) := by
  decide

/-- C5 amended: the public call interface is evaluate(eval_code,
input_variables = empty, output_variables = empty) with the deadline fixed
at 0.5 seconds by the timeout decorator rather than passed by the caller,
and a call whose deadline is exceeded fails with a TimeoutException carrying
the elapsed duration. -/
theorem evaluate_interface_fixed_deadline :
    evaluate_param_names = ["eval_code", "input_variables", "output_variables"] ∧
    evaluate_timeout_seconds = 1/2 ∧
    (∀ (interp : Interp) (eval_code : String) (input_variables : Dict)
        (output_variables : List Ident) (t : ℚ),
      evaluate_call interp eval_code input_variables output_variables
          (Timing.timedOut t) =
        (Except.error (PyError.timeoutException t), true)) := by
  refine ⟨rfl, rfl, ?_⟩
  intro interp eval_code input_variables output_variables t
  simp [evaluate_call, mkObs, timeout_inner]

/-- C6: run_func performs exactly one put per invocation — the success
envelope on normal return, the failure envelope on a raised error — the
queue is created with capacity one, and after the puts it holds at most one
item. -/
theorem run_func_exactly_one_push (f : Unit → Except PyError Dict) :
    (run_func f).length = 1 ∧
    (RunnableProcessing.newQueue Dict).maxsize = 1 ∧
    (pushAll (RunnableProcessing.newQueue Dict) (run_func f)).items.length ≤ 1 ∧
    (∀ r, f () = Except.ok r → run_func f = [Envelope.success r]) ∧
    (∀ e, f () = Except.error e → run_func f = [Envelope.failure e]) := by
  refine ⟨?_, rfl, ?_, ?_, ?_⟩
  · cases h : f () <;> simp [run_func, h]
  · cases h : f () <;>
      simp [run_func, h, pushAll, RunnableProcessing.newQueue,
        BoundedQueue.put, BoundedQueue.full]
  · intro r hr
    simp [run_func, hr]
  · intro e he
    simp [run_func, he]

/-- Witness for C6 at a concrete returning callable. -/
theorem run_func_exactly_one_push_witness :
    run_func (fun _ => (Except.ok [] : Except PyError Dict)) =
      [Envelope.success []] :=
  (run_func_exactly_one_push (fun _ => Except.ok [])).2.2.2.1 [] rfl

/-- C7: when the child reports finished but the capacity-one queue is empty,
the call aborts with an AssertionError; it never returns a mapping, in
particular not a silent empty one. -/
theorem finished_empty_channel_fails_loudly (obs : ProcObs Dict)
    (h1 : obs.alive = false) (h2 : obs.queue = RunnableProcessing.newQueue Dict) :
    timeout_inner true obs = (Except.error PyError.assertionError, false) ∧
    ∀ m : Dict, (timeout_inner true obs).1 ≠ Except.ok m := by
  have hmain : timeout_inner true obs =
      (Except.error PyError.assertionError, false) := by
    simp [timeout_inner, h1, h2, RunnableProcessing.newQueue, BoundedQueue.full]
  refine ⟨hmain, ?_⟩
  intro m
  rw [hmain]
  simp

/-- Witness for C7 at a concrete finished-but-empty observation. -/
theorem finished_empty_channel_fails_loudly_witness :
    timeout_inner true
        { alive := false, elapsed := 0, queue := RunnableProcessing.newQueue Dict } =
      (Except.error PyError.assertionError, false) :=
  (finished_empty_channel_fails_loudly
    { alive := false, elapsed := 0, queue := RunnableProcessing.newQueue Dict }
    rfl rfl).1

/-- C8: the symbol table evaluate starts from is built fresh from the fixed
minimal base allow-list, the range builtin, and the input_variables entries
— every key comes from one of those three sources, so nothing of any ambient
namespace can appear — the range primitive is seeded (when the caller does
not shadow it), and every input entry is present with its value. -/
theorem evaluate_symtable_fresh_and_seeded (ins : Dict) :
    (∀ x, x ∈ Dict.keys (init_symtable ins) →
        x ∈ Dict.keys base_symtable ∨ x = "range" ∨ x ∈ Dict.keys ins) ∧
    ("range" ∉ Dict.keys ins →
        Dict.lookup (init_symtable ins) "range" =
          Option.some (Value.builtin "range")) ∧
    ((Dict.keys ins).Nodup → "range" ∉ Dict.keys ins →
        ∀ k v, (k, v) ∈ ins →
          Dict.lookup (init_symtable ins) k = Option.some v) := by
  refine ⟨?_, ?_, ?_⟩
  · intro x hx
    simp only [init_symtable, make_symbol_table, Dict.keys, List.map_append,
      List.mem_append, List.mem_map, List.mem_filter, List.map_cons,
      List.mem_cons, decide_eq_true_eq] at hx
    rcases hx with ⟨kv, ⟨hbase, _⟩, rfl⟩ | hx
    · exact Or.inl (by simpa [Dict.keys] using List.mem_map_of_mem Prod.fst hbase)
    · rcases hx with hx | hx
      · exact Or.inr (Or.inl hx)
      · exact Or.inr (Or.inr (by simpa [Dict.keys] using hx))
  · intro _
    rw [init_symtable, lookup_make_symbol_table]
    · simp [Dict.lookup]
    · simp [Dict.keys]
  · intro hnd hrange k v hkv
    have hkins : k ∈ Dict.keys ins := by
      simpa [Dict.keys] using List.mem_map_of_mem Prod.fst hkv
    have hkne : ¬ ((("range" : Ident), Value.builtin "range").1 = k) := by
      intro e
      have e2 : ("range" : Ident) = k := e
      rw [← e2] at hkins
      exact hrange hkins
    rw [init_symtable, lookup_make_symbol_table]
    · simp only [Dict.lookup, if_neg hkne]
      exact Dict.lookup_eq_some_of_mem ins k v hnd hkv
    · simp only [Dict.keys, List.map_cons, List.mem_cons]
      exact Or.inr (by simpa [Dict.keys] using hkins)

/-- Witness for C8 at a concrete one-entry input dictionary. -/
theorem evaluate_symtable_fresh_and_seeded_witness :
    ("y" ∈ Dict.keys (init_symtable [("y", Value.int 10)]) →
        "y" ∈ Dict.keys base_symtable ∨ "y" = "range" ∨
          "y" ∈ Dict.keys [("y", Value.int 10)]) ∧
    Dict.lookup (init_symtable [("y", Value.int 10)]) "range" =
      Option.some (Value.builtin "range") ∧
    Dict.lookup (init_symtable [("y", Value.int 10)]) "y" =
      Option.some (Value.int 10) :=
  ⟨(evaluate_symtable_fresh_and_seeded [("y", Value.int 10)]).1 "y",
   (evaluate_symtable_fresh_and_seeded [("y", Value.int 10)]).2.1 (by decide),
   (evaluate_symtable_fresh_and_seeded [("y", Value.int 10)]).2.2
     (by decide) (by decide) "y" (Value.int 10) (by decide)⟩

/-- C9: two calls to evaluate on the same code, inputs and outputs that both
succeed return the same output mapping, whatever the timing of each run was
— the timing can only decide between success and a TimeoutException, never
change a successful result. -/
theorem evaluate_deterministic_under_success (interp : Interp)
    (eval_code : String) (input_variables : Dict) (output_variables : List Ident)
    (t1 t2 : Timing) (m1 m2 : Dict)
    (h1 : (evaluate_call interp eval_code input_variables output_variables t1).1 =
      Except.ok m1)
    (h2 : (evaluate_call interp eval_code input_variables output_variables t2).1 =
      Except.ok m2) :
    m1 = m2 := by
  cases t1 with
  | timedOut t => simp [evaluate_call, mkObs, timeout_inner] at h1
  | finished =>
    cases t2 with
    | timedOut t => simp [evaluate_call, mkObs, timeout_inner] at h2
    | finished =>
      rw [evaluate_call_finished] at h1 h2
      exact Except.ok.inj (h1.symm.trans h2)

/-- Witness for C9 at a concrete interpreter and two finished runs. -/
theorem evaluate_deterministic_under_success_witness :
    ([] : Dict) = [] :=
  evaluate_deterministic_under_success (fun _ _ sym => Except.ok sym) "" [] []
    Timing.finished Timing.finished [] [] rfl rfl

/-- C10: evaluate never mutates the dictionary the caller passed as
input_variables: its entries are only read (and copied into the freshly
allocated symbol table), so after the call — success, interpreter failure or
timeout — the caller's reference reads back exactly what it held before. -/
theorem evaluate_preserves_caller_inputs (interp : Interp) (eval_code : String)
    (output_variables : List Ident) (timing : Timing) (h : Heap) (r : Nat)
    (hr : r < h.next) :
    Heap.read (evaluate_call_heap interp eval_code r output_variables timing h).2 r =
      Heap.read h r := by
  have hne : r ≠ h.next := Nat.ne_of_lt hr
  cases timing with
  | timedOut t => rfl
  | finished =>
    show Heap.read (evaluate_heap interp eval_code r output_variables h).2 r =
      Heap.read h r
    cases hi : interp evaluatorConfig eval_code (init_symtable (h.store r)) with
    | ok sym2 =>
      simp [evaluate_heap, Heap.alloc, Heap.read, Heap.write,
        Function.update_same, hi, Function.update_noteq hne]
    | error e =>
      simp [evaluate_heap, Heap.alloc, Heap.read,
        Function.update_same, hi, Function.update_noteq hne]

/-- Witness for C10 at a concrete heap holding one caller dictionary. -/
theorem evaluate_preserves_caller_inputs_witness :
    0 < 1 ∧
    Heap.read (evaluate_call_heap (fun _ _ sym => Except.ok sym) "" 0 []
        Timing.finished { next := 1, store := fun _ => [] }).2 0 =
      Heap.read { next := 1, store := fun _ => [] } 0 :=
  ⟨Nat.zero_lt_one,
   evaluate_preserves_caller_inputs (fun _ _ sym => Except.ok sym) "" []
     Timing.finished { next := 1, store := fun _ => [] } 0 Nat.zero_lt_one⟩
